import Mathlib

/-!
Verification of the prime stressor (`src/stress-prime.c`).

The worker repeatedly computes the next prime after a growing candidate
`start`, using one of four growth methods, accumulates the wall-clock time
spent inside the primality search, counts one operation per prime found,
records the decimal digit length of the latest prime, optionally emits a
rate-limited progress line, and handles a two-stage SIGALRM cancellation
protocol (first signal: clear the continue flag; second signal: siglongjmp
straight to the report phase).

Arbitrary-precision integers are modelled as `Nat`; wall-clock instants and
durations as `ℚ`.  The GMP primality oracle (`mpz_nextprime`) is external to
the repository, so the loop model is parameterised over an oracle
`f : Nat → Nat`; a provably correct least-prime-above oracle `nextPrime` is
also defined for claims that assume the oracle's specification.
-/

namespace StressPrime

/-! ### Method constants (`#define STRESS_PRIME_METHOD_*`, lines 25-28) -/

def STRESS_PRIME_METHOD_FACTORIAL : Nat := 0
def STRESS_PRIME_METHOD_INC : Nat := 1
def STRESS_PRIME_METHOD_PWR2 : Nat := 2
def STRESS_PRIME_METHOD_PWR10 : Nat := 3

/-- `#define STRESS_PRIME_PROGRESS_INC_SECS (60.0)` (line 30). -/
def STRESS_PRIME_PROGRESS_INC_SECS : ℚ := 60

/-- `int prime_method = STRESS_PRIME_METHOD_INC;` (line 115): the method used
when no `prime-method` setting is configured. -/
def defaultPrimeMethod : Nat := STRESS_PRIME_METHOD_INC

/-! ### Decimal digit length (`mpz_sizeinbase(value, 10)`, line 168)

The adapter contract (spec §4.2) requires "compute decimal digit length".
`sizeinbase10` is a fuel-based structural recursion so that it evaluates by
`decide`/`rfl`; the fuel `n` always suffices. -/

def sizeinbase10Aux : Nat → Nat → Nat
  | 0, _ => 1
  | fuel + 1, n => if n < 10 then 1 else 1 + sizeinbase10Aux fuel (n / 10)

def sizeinbase10 (n : Nat) : Nat := sizeinbase10Aux n n

/-! ### The primality oracle

`mpz_nextprime(value, start)` sets `value` to the smallest prime strictly
greater than `start` (spec §4.2: "smallest prime strictly greater than N").
-/

/-- The smallest prime strictly greater than `n`. -/
def nextPrime (n : Nat) : Nat := Nat.find (Nat.exists_infinite_primes (n + 1))

theorem nextPrime_spec (n : Nat) :
    Nat.Prime (nextPrime n) ∧ n < nextPrime n ∧
      ∀ q, Nat.Prime q → n < q → nextPrime n ≤ q := by
  have h := Nat.find_spec (Nat.exists_infinite_primes (n + 1))
  refine ⟨h.2, h.1, fun q hq hnq => ?_⟩
  by_contra hlt
  push_neg at hlt
  exact Nat.find_min (Nat.exists_infinite_primes (n + 1)) hlt ⟨hnq, hq⟩

/-! ### Growth step (the `switch (prime_method)`, lines 151-166)

State mutated by the loop body: `start`, `value`, `factorial` are the three
`mpz_t` variables; the switch has `default:` falling into the
`STRESS_PRIME_METHOD_FACTORIAL` arm. -/

structure MpzState where
  start : Nat
  value : Nat
  factorial : Nat
  deriving Repr, DecidableEq

/-- The `switch (prime_method)` statement, lines 151-166.  `default:` shares
the factorial arm (`mpz_mul(start, start, factorial); mpz_add_ui(factorial,
factorial, 1)`). -/
def growthStep (prime_method : Nat) (s : MpzState) : MpzState :=
  match prime_method with
  | 1 => { s with start := s.value + 2 }
  | 2 => { s with start := s.start * 2 }
  | 3 => { s with start := s.start * 10 }
  | _ => { s with start := s.start * s.factorial, factorial := s.factorial + 1 }

/-! ### Rate computation (line 190)

`rate = (duration > 0.0) ? (double)ops / duration : 0.0;` -/

def rateOf (ops : Nat) (duration : ℚ) : ℚ :=
  if 0 < duration then (ops : ℚ) / duration else 0

/-! ### Progress gate (lines 138, 170-174)

`t_progress_secs` starts at `now + 60`; each search-step completion time
`t2` with `prime_progress && t2 >= t_progress_secs` fires an emission and
advances the threshold by exactly 60. -/

/-- One evaluation of the progress gate at search-completion time `t2`:
returns the new threshold and whether a progress line was emitted. -/
def progressUpdate (prime_progress : Bool) (t2 tP : ℚ) : ℚ × Bool :=
  if prime_progress ∧ tP ≤ t2 then (tP + STRESS_PRIME_PROGRESS_INC_SECS, true)
  else (tP, false)

/-- The progress gate run over a sequence of search-completion times, with
progress enabled: final threshold and the list of emission timestamps. -/
def progressRun (tP : ℚ) : List ℚ → ℚ × List ℚ
  | [] => (tP, [])
  | t :: ts =>
    let r := progressUpdate true t tP
    let rest := progressRun r.1 ts
    if r.2 then (rest.1, t :: rest.2) else (rest.1, rest.2)

/-- `if (args->instance > 0) prime_progress = false;` (lines 123-125). -/
def effectiveProgress (instance_ : Nat) (prime_progress : Bool) : Bool :=
  if instance_ > 0 then false else prime_progress

/-! ### The search loop with two-stage cancellation (lines 94-191) -/

/-- Per-worker loop state.  `duration` and `digits` are the NOCLOBBER locals
(lines 111-112, preserved across `siglongjmp`), `ops` the harness bogo
counter, `tProgress` the `t_progress_secs` threshold, `contFlag` the
process-wide continue flag consulted by `stress_continue`, `sigCount` the
handler's static `count` (line 99), and `emits` the timestamps of progress
lines printed so far. -/
structure LoopState where
  mpz : MpzState
  ops : Nat
  digits : Nat
  duration : ℚ
  tProgress : ℚ
  contFlag : Bool
  sigCount : Nat
  emits : List ℚ
  deriving DecidableEq

/-- `stress_prime_alarm_handler` (lines 97-106): clear the continue flag and
bump the static count.  The run driver siglongjmps exactly when the bumped
count exceeds 1 (`if (count > 1) siglongjmp(jmpbuf, 1)`). -/
def deliverSignal (s : LoopState) : LoopState :=
  { s with contFlag := false, sigCount := s.sigCount + 1 }

/-- One iteration's externally determined data: the wall-clock reads `t1`
(line 146) and `t2` (line 148), whether a SIGALRM is delivered while the
`mpz_nextprime` call is executing, and whether one is delivered between the
end of the body and the loop-condition check. -/
structure IterEvent where
  t1 : ℚ
  t2 : ℚ
  sigInSearch : Bool
  sigAfterBody : Bool
  deriving DecidableEq

/-- The remainder of one loop iteration once `mpz_nextprime` has returned
(lines 147-174): store the found prime, accumulate the search duration,
apply the growth step, bump the bogo counter, recompute the digit length,
and run the progress gate. -/
def iterBody (f : Nat → Nat) (prime_method : Nat) (prime_progress : Bool)
    (e : IterEvent) (s : LoopState) : LoopState :=
  let v := f s.mpz.start
  let p := progressUpdate prime_progress e.t2 s.tProgress
  { s with
    mpz := growthStep prime_method { s.mpz with value := v }
    duration := s.duration + (e.t2 - e.t1)
    ops := s.ops + 1
    digits := sizeinbase10 v
    tProgress := p.1
    emits := if p.2 then s.emits ++ [e.t2] else s.emits }

/-- What the `finish:` phase (lines 177-191) produces: the `jumped` flag,
whether `mpz_clears` ran (line 183, skipped exactly when `jumped`), and the
always-emitted final metrics — operation count and digit length of the final
`pr_inf` line (lines 186-188) and the rate passed to `stress_metrics_set`
(lines 190-191) — together with the progress lines emitted earlier. -/
structure RunResult where
  jumped : Bool
  cleared : Bool
  ops : Nat
  digits : Nat
  rate : ℚ
  emits : List ℚ
  deriving DecidableEq

/-- The `finish:` phase, entered with the given `jumped` flag. -/
def finishRun (jumped : Bool) (s : LoopState) : RunResult :=
  { jumped := jumped
    cleared := !jumped
    ops := s.ops
    digits := s.digits
    rate := rateOf s.ops s.duration
    emits := s.emits }

/-- The `do { ... } while (stress_continue(args))` loop (lines 143-175),
driven by a schedule of iteration events.  A signal delivered in-search
runs the handler mid-`mpz_nextprime`: if it is the second (or later)
signal, the handler siglongjmps and the interrupted iteration's updates are
lost (`duration` and `digits` are NOCLOBBER, keeping their pre-iteration
values; the bogo counter was not yet bumped); otherwise the handler returns
and the iteration completes in full.  A signal after the body likewise
either returns (first) or siglongjmps (second) with the body's updates
retained.  An exhausted schedule cuts the loop short and reports the state
reached (the theorems below only use schedules on which the loop exits by
itself). -/
def runLoop (f : Nat → Nat) (prime_method : Nat) (prime_progress : Bool) :
    List IterEvent → LoopState → RunResult
  | [], s => finishRun false s
  | e :: es, s =>
    let s0 := if e.sigInSearch then deliverSignal s else s
    if e.sigInSearch ∧ s0.sigCount > 1 then
      finishRun true s0
    else
      let s1 := iterBody f prime_method prime_progress e s0
      let s2 := if e.sigAfterBody then deliverSignal s1 else s1
      if e.sigAfterBody ∧ s2.sigCount > 1 then
        finishRun true s2
      else if s2.contFlag then
        runLoop f prime_method prime_progress es s2
      else
        finishRun false s2

/-- The state after `n` signal-free completed loop iterations, iteration `i`
carrying event `ts i`. -/
def iterateN (f : Nat → Nat) (prime_method : Nat) (prime_progress : Bool)
    (ts : Nat → IterEvent) : Nat → LoopState → LoopState
  | 0, s => s
  | n + 1, s =>
    iterateN f prime_method prime_progress ts n
      (iterBody f prime_method prime_progress (ts n) s)

/-- The loop state set up on entry (lines 111-138): `duration = 0.0`,
`digits = 1`, `start = 1`, `factorial = 2` (`value` is zero-initialised by
`mpz_inits`), bogo counter 0, continue flag still set, handler count 0, and
`t_progress_secs = stress_time_now() + STRESS_PRIME_PROGRESS_INC_SECS`
where `t0` is the clock read on line 138. -/
def initState (t0 : ℚ) : LoopState :=
  { mpz := { start := 1, value := 0, factorial := 2 }
    ops := 0
    digits := 1
    duration := 0
    tProgress := t0 + STRESS_PRIME_PROGRESS_INC_SECS
    contFlag := true
    sigCount := 0
    emits := [] }

/-- The `(start, value, factorial)` state after `n` search-plus-growth steps
from the initial assignment `start = 1, factorial = 2` (lines 129-130), with
primality oracle `f`. -/
def mpzIter (f : Nat → Nat) (prime_method : Nat) : Nat → MpzState
  | 0 => { start := 1, value := 0, factorial := 2 }
  | n + 1 =>
    let s := mpzIter f prime_method n
    growthStep prime_method { s with value := f s.start }

/-- The `n`-th candidate produced by the growth step (the value of `start`
after `n + 1` iterations, i.e. the lower bound handed to the `n + 1`-st
search). -/
def candidate (f : Nat → Nat) (prime_method : Nat) (n : Nat) : Nat :=
  (mpzIter f prime_method (n + 1)).start

/-! ### Helper lemmas -/

theorem sizeinbase10Aux_eq (fuel : Nat) :
    ∀ n, 0 < n → n ≤ fuel → sizeinbase10Aux fuel n = (Nat.digits 10 n).length := by
  induction fuel with
  | zero => intro n hn hf; omega
  | succ fuel ih =>
    intro n hn hf
    rw [sizeinbase10Aux, Nat.digits_def' (by norm_num : (1:ℕ) < 10) hn]
    by_cases h : n < 10
    · have hd : n / 10 = 0 := Nat.div_eq_of_lt h
      simp [h, hd]
    · have h10 : 10 ≤ n := le_of_not_lt h
      have hdiv : 0 < n / 10 := Nat.div_pos h10 (by norm_num)
      have hself : n / 10 < n := Nat.div_lt_self hn (by norm_num)
      have hle : n / 10 ≤ fuel := by omega
      simp only [if_neg h, ih (n / 10) hdiv hle, List.length_cons]
      omega

/-- `mpz_sizeinbase(n, 10)` computes the exact decimal digit count for any
positive `n`. -/
theorem sizeinbase10_eq_digits_len (n : Nat) (hn : 0 < n) :
    sizeinbase10 n = (Nat.digits 10 n).length :=
  sizeinbase10Aux_eq n n hn le_rfl

theorem growthStep_value (m : Nat) (s : MpzState) :
    (growthStep m s).value = s.value := by
  rcases m with _ | _ | _ | _ | m <;> rfl

theorem iterBody_contFlag (f : Nat → Nat) (m : Nat) (pp : Bool) (e : IterEvent)
    (s : LoopState) : (iterBody f m pp e s).contFlag = s.contFlag := rfl

theorem iterBody_sigCount (f : Nat → Nat) (m : Nat) (pp : Bool) (e : IterEvent)
    (s : LoopState) : (iterBody f m pp e s).sigCount = s.sigCount := rfl

theorem iterBody_ops (f : Nat → Nat) (m : Nat) (pp : Bool) (e : IterEvent)
    (s : LoopState) : (iterBody f m pp e s).ops = s.ops + 1 := rfl

theorem iterBody_digits (f : Nat → Nat) (m : Nat) (pp : Bool) (e : IterEvent)
    (s : LoopState) : (iterBody f m pp e s).digits = sizeinbase10 (f s.mpz.start) := rfl

theorem iterBody_value (f : Nat → Nat) (m : Nat) (pp : Bool) (e : IterEvent)
    (s : LoopState) : (iterBody f m pp e s).mpz.value = f s.mpz.start := by
  show (growthStep m { s.mpz with value := f s.mpz.start }).value = f s.mpz.start
  rw [growthStep_value]

theorem deliverSignal_contFlag (s : LoopState) : (deliverSignal s).contFlag = false := rfl

theorem deliverSignal_sigCount (s : LoopState) :
    (deliverSignal s).sigCount = s.sigCount + 1 := rfl

theorem deliverSignal_emits (s : LoopState) : (deliverSignal s).emits = s.emits := rfl

theorem finishRun_emits (b : Bool) (s : LoopState) : (finishRun b s).emits = s.emits := rfl

theorem progressUpdate_not_enabled (t2 tP : ℚ) : progressUpdate false t2 tP = (tP, false) := by
  simp [progressUpdate]

theorem iterBody_emits_not_enabled (f : Nat → Nat) (m : Nat) (e : IterEvent)
    (s : LoopState) : (iterBody f m false e s).emits = s.emits := by
  simp [iterBody, progressUpdate_not_enabled]

theorem runLoop_emits_not_enabled (f : Nat → Nat) (m : Nat) :
    ∀ (es : List IterEvent) (s : LoopState), (runLoop f m false es s).emits = s.emits := by
  intro es
  induction es with
  | nil => intro s; rfl
  | cons e es ih =>
    intro s
    simp only [runLoop]
    split_ifs <;>
      simp_all [finishRun_emits, deliverSignal_emits, iterBody_emits_not_enabled, ih]

theorem candidate_fact_zero (f : Nat → Nat) : candidate f 0 0 = 2 := rfl

theorem mpzIter_fact_succ (f : Nat → Nat) (n : Nat) :
    (mpzIter f 0 (n + 1)).factorial = (mpzIter f 0 n).factorial + 1 := rfl

theorem candidate_fact_succ (f : Nat → Nat) (n : Nat) :
    candidate f 0 (n + 1) = candidate f 0 n * (mpzIter f 0 (n + 1)).factorial := rfl

/-- The factorial accumulator starts at 2 and is bumped once per iteration. -/
theorem mpzIter_fact (f : Nat → Nat) : ∀ n, (mpzIter f 0 n).factorial = n + 2 := by
  intro n
  induction n with
  | zero => rfl
  | succ n ih => rw [mpzIter_fact_succ, ih]

theorem cand_fact_ge2 (f : Nat → Nat) : ∀ n, 2 ≤ candidate f 0 n := by
  intro n
  induction n with
  | zero => exact le_refl 2
  | succ n ih =>
    rw [candidate_fact_succ]
    calc 2 ≤ candidate f 0 n := ih
    _ ≤ candidate f 0 n * (mpzIter f 0 (n + 1)).factorial :=
      Nat.le_mul_of_pos_right _ (by rw [mpzIter_fact]; omega)

theorem cand_fact_lt (f : Nat → Nat) (n : Nat) :
    candidate f 0 n < candidate f 0 (n + 1) := by
  rw [candidate_fact_succ, mpzIter_fact]
  have h2 := cand_fact_ge2 f n
  nlinarith

theorem candidate_inc_zero (f : Nat → Nat) : candidate f 1 0 = f 1 + 2 := rfl

theorem candidate_inc_succ (f : Nat → Nat) (n : Nat) :
    candidate f 1 (n + 1) = f (candidate f 1 n) + 2 := rfl

theorem cand_inc_ge2 (f : Nat → Nat) : ∀ n, 2 ≤ candidate f 1 n := by
  intro n
  cases n with
  | zero => rw [candidate_inc_zero]; omega
  | succ n => rw [candidate_inc_succ]; omega

theorem cand_inc_lt (f : Nat → Nat) (hf : ∀ n, n < f n) (n : Nat) :
    candidate f 1 n < candidate f 1 (n + 1) := by
  rw [candidate_inc_succ]
  have := hf (candidate f 1 n)
  omega

theorem candidate_pwr2_succ (f : Nat → Nat) (n : Nat) :
    candidate f 2 (n + 1) = candidate f 2 n * 2 := rfl

theorem cand_pwr2_ge2 (f : Nat → Nat) : ∀ n, 2 ≤ candidate f 2 n := by
  intro n
  induction n with
  | zero => exact le_refl 2
  | succ n ih => rw [candidate_pwr2_succ]; omega

theorem cand_pwr2_lt (f : Nat → Nat) (n : Nat) :
    candidate f 2 n < candidate f 2 (n + 1) := by
  rw [candidate_pwr2_succ]
  have := cand_pwr2_ge2 f n
  omega

theorem candidate_pwr10_zero (f : Nat → Nat) : candidate f 3 0 = 10 := rfl

theorem candidate_pwr10_succ (f : Nat → Nat) (n : Nat) :
    candidate f 3 (n + 1) = candidate f 3 n * 10 := rfl

theorem cand_pwr10_ge2 (f : Nat → Nat) : ∀ n, 2 ≤ candidate f 3 n := by
  intro n
  induction n with
  | zero => rw [candidate_pwr10_zero]; omega
  | succ n ih => rw [candidate_pwr10_succ]; omega

theorem cand_pwr10_lt (f : Nat → Nat) (n : Nat) :
    candidate f 3 n < candidate f 3 (n + 1) := by
  rw [candidate_pwr10_succ]
  have := cand_pwr10_ge2 f n
  omega

/-- Behaviour of the progress gate over a run: the final threshold is the
initial one plus the interval times the number of firings, and the `i`-th
firing time is at least the initial threshold plus `i` intervals. -/
theorem progressRun_spec : ∀ (ts : List ℚ) (tP : ℚ),
    (progressRun tP ts).1 =
      tP + STRESS_PRIME_PROGRESS_INC_SECS * ((progressRun tP ts).2.length : ℚ) ∧
    ∀ i (h : i < (progressRun tP ts).2.length),
      tP + STRESS_PRIME_PROGRESS_INC_SECS * (i : ℚ) ≤ (progressRun tP ts).2.get ⟨i, h⟩ := by
  intro ts
  induction ts with
  | nil =>
    intro tP
    refine ⟨by simp [progressRun], ?_⟩
    intro i h
    simp [progressRun] at h
  | cons t ts ih =>
    intro tP
    by_cases hc : tP ≤ t
    · have hred : progressRun tP (t :: ts) =
          ((progressRun (tP + STRESS_PRIME_PROGRESS_INC_SECS) ts).1,
           t :: (progressRun (tP + STRESS_PRIME_PROGRESS_INC_SECS) ts).2) := by
        simp [progressRun, progressUpdate, hc]
      obtain ⟨ih1, ih2⟩ := ih (tP + STRESS_PRIME_PROGRESS_INC_SECS)
      rw [hred]
      constructor
      · simp only [List.length_cons, ih1]
        push_cast
        ring
      · intro i h
        cases i with
        | zero => simpa using hc
        | succ i =>
          simp only [List.length_cons, Nat.succ_lt_succ_iff] at h
          have h2 := ih2 i h
          simp only [List.get_cons_succ]
          push_cast at h2 ⊢
          linarith
    · have hred : progressRun tP (t :: ts) = progressRun tP ts := by
        simp [progressRun, progressUpdate, hc]
      rw [hred]
      exact ih tP

/-! ### Claim theorems -/

/-- C1: if a second cancellation signal is delivered while the worker is
still inside a primality-search call, control jumps immediately to the
report phase: the jumped flag is true, the explicit `mpz_clears` release is
skipped, and the final metrics — operation count, digit length and rate —
are still emitted, with the values accumulated before the interrupted
iteration. -/
theorem second_signal_jumps_to_report (f : Nat → Nat) (m : Nat) (pp : Bool)
    (e : IterEvent) (es : List IterEvent) (s : LoopState)
    (hsig : e.sigInSearch = true) (hcount : s.sigCount = 1) :
    runLoop f m pp (e :: es) s = finishRun true (deliverSignal s) ∧
    (runLoop f m pp (e :: es) s).jumped = true ∧
    (runLoop f m pp (e :: es) s).cleared = false ∧
    (runLoop f m pp (e :: es) s).ops = s.ops ∧
    (runLoop f m pp (e :: es) s).digits = s.digits ∧
    (runLoop f m pp (e :: es) s).rate = rateOf s.ops s.duration := by
  have h : runLoop f m pp (e :: es) s = finishRun true (deliverSignal s) := by
    simp [runLoop, hsig, deliverSignal, hcount]
  exact ⟨h, by rw [h]; rfl, by rw [h]; rfl, by rw [h]; rfl, by rw [h]; rfl, by rw [h]; rfl⟩

theorem second_signal_jumps_to_report_witness :
    (⟨0, 1, true, false⟩ : IterEvent).sigInSearch = true ∧
    (⟨⟨1, 0, 2⟩, 5, 3, 7, 60, false, 1, []⟩ : LoopState).sigCount = 1 ∧
    (runLoop (fun n => n + 1) 1 false [⟨0, 1, true, false⟩]
      (⟨⟨1, 0, 2⟩, 5, 3, 7, 60, false, 1, []⟩ : LoopState)).jumped = true ∧
    (runLoop (fun n => n + 1) 1 false [⟨0, 1, true, false⟩]
      (⟨⟨1, 0, 2⟩, 5, 3, 7, 60, false, 1, []⟩ : LoopState)).cleared = false :=
  ⟨rfl, rfl,
   (second_signal_jumps_to_report (fun n => n + 1) 1 false _ [] _ rfl rfl).2.1,
   (second_signal_jumps_to_report (fun n => n + 1) 1 false _ [] _ rfl rfl).2.2.1⟩

/-- C2: after the first cancellation signal (which clears the continue
flag), the search loop completes its current iteration in full — prime
search, growth step, count increment, digit-length update and progress
check all take effect — and then exits normally; the jumped flag stays
false and `mpz_clears` is performed. -/
theorem first_signal_completes_iteration (f : Nat → Nat) (m : Nat) (pp : Bool)
    (e : IterEvent) (es : List IterEvent) (s : LoopState)
    (hsig : e.sigInSearch = true) (hafter : e.sigAfterBody = false)
    (hcount : s.sigCount = 0) :
    runLoop f m pp (e :: es) s =
      finishRun false (iterBody f m pp e (deliverSignal s)) ∧
    (runLoop f m pp (e :: es) s).jumped = false ∧
    (runLoop f m pp (e :: es) s).cleared = true ∧
    (runLoop f m pp (e :: es) s).ops = s.ops + 1 ∧
    (runLoop f m pp (e :: es) s).digits = sizeinbase10 (f s.mpz.start) := by
  have h : runLoop f m pp (e :: es) s =
      finishRun false (iterBody f m pp e (deliverSignal s)) := by
    simp [runLoop, hsig, hafter, hcount, deliverSignal_sigCount, iterBody_contFlag,
      deliverSignal_contFlag, iterBody_sigCount]
  exact ⟨h, by rw [h]; rfl, by rw [h]; rfl, by rw [h]; rfl, by rw [h]; rfl⟩

theorem first_signal_completes_iteration_witness :
    (⟨0, 1, true, false⟩ : IterEvent).sigInSearch = true ∧
    (⟨0, 1, true, false⟩ : IterEvent).sigAfterBody = false ∧
    (initState 0).sigCount = 0 ∧
    (runLoop (fun n => n + 1) 1 false [⟨0, 1, true, false⟩] (initState 0)).jumped = false ∧
    (runLoop (fun n => n + 1) 1 false [⟨0, 1, true, false⟩] (initState 0)).ops = 0 + 1 :=
  ⟨rfl, rfl, rfl,
   (first_signal_completes_iteration (fun n => n + 1) 1 false _ [] _ rfl rfl rfl).2.1,
   (first_signal_completes_iteration (fun n => n + 1) 1 false _ [] _ rfl rfl rfl).2.2.2.1⟩

/-- C3: the reported rate is the final operation count divided by the
accumulated search duration when that duration is positive, and exactly 0
when the duration is zero; in particular 1000 operations over duration 10
give rate 100. -/
theorem rate_computation (ops : Nat) (d : ℚ) :
    (0 < d → rateOf ops d = (ops : ℚ) / d) ∧
    (d = 0 → rateOf ops d = 0) ∧
    rateOf 1000 10 = 100 ∧ rateOf 1000 0 = 0 := by
  refine ⟨fun h => by simp [rateOf, h], fun h => by simp [rateOf, h], ?_, by simp [rateOf]⟩
  norm_num [rateOf]

theorem rate_computation_witness :
    (0 : ℚ) < 10 ∧ rateOf 1000 10 = (1000 : ℚ) / 10 ∧ rateOf 1000 0 = 0 :=
  ⟨by norm_num, (rate_computation 1000 10).1 (by norm_num), (rate_computation 1000 0).2.1 rfl⟩

/-- C5: the digit length recorded after the search step equals the exact
number of decimal digits of the found prime; e.g. 97 has digit length 2 and
104729 has digit length 6. -/
theorem digit_length_exact (f : Nat → Nat) (m : Nat) (pp : Bool) (e : IterEvent)
    (s : LoopState) (hpos : 0 < f s.mpz.start) :
    (iterBody f m pp e s).digits =
      (Nat.digits 10 ((iterBody f m pp e s).mpz.value)).length ∧
    sizeinbase10 97 = 2 ∧ sizeinbase10 104729 = 6 := by
  refine ⟨?_, by decide, by decide⟩
  rw [iterBody_digits, iterBody_value]
  exact sizeinbase10_eq_digits_len _ hpos

theorem digit_length_exact_witness :
    0 < (fun _ : Nat => 97) ((initState 0).mpz.start) ∧
    (iterBody (fun _ => 97) 1 false ⟨0, 1, false, false⟩ (initState 0)).digits =
      (Nat.digits 10 ((iterBody (fun _ => 97) 1 false ⟨0, 1, false, false⟩
        (initState 0)).mpz.value)).length :=
  ⟨by decide,
   (digit_length_exact (fun _ => 97) 1 false ⟨0, 1, false, false⟩ (initState 0) (by decide)).1⟩

/-- C6: for each of the four growth methods, starting from `start = 1` and
`factorial = 2`, and assuming the primality oracle returns the smallest
prime strictly greater than its argument, the candidate sequence produced
by the growth step is strictly increasing and every candidate is at least
2. -/
theorem candidates_strictly_increasing (f : Nat → Nat)
    (hf : ∀ n, Nat.Prime (f n) ∧ n < f n ∧ ∀ q, Nat.Prime q → n < q → f n ≤ q)
    (m : Nat)
    (hm : m = STRESS_PRIME_METHOD_FACTORIAL ∨ m = STRESS_PRIME_METHOD_INC ∨
          m = STRESS_PRIME_METHOD_PWR2 ∨ m = STRESS_PRIME_METHOD_PWR10) :
    StrictMono (candidate f m) ∧ ∀ n, 2 ≤ candidate f m n := by
  have hlt : ∀ n, n < f n := fun n => (hf n).2.1
  rcases hm with rfl | rfl | rfl | rfl
  · exact ⟨strictMono_nat_of_lt_succ (cand_fact_lt f), cand_fact_ge2 f⟩
  · exact ⟨strictMono_nat_of_lt_succ (cand_inc_lt f hlt), cand_inc_ge2 f⟩
  · exact ⟨strictMono_nat_of_lt_succ (cand_pwr2_lt f), cand_pwr2_ge2 f⟩
  · exact ⟨strictMono_nat_of_lt_succ (cand_pwr10_lt f), cand_pwr10_ge2 f⟩

theorem candidates_strictly_increasing_witness :
    candidate nextPrime STRESS_PRIME_METHOD_INC 0 <
      candidate nextPrime STRESS_PRIME_METHOD_INC 1 ∧
    2 ≤ candidate nextPrime STRESS_PRIME_METHOD_INC 0 :=
  ⟨(candidates_strictly_increasing nextPrime nextPrime_spec STRESS_PRIME_METHOD_INC
      (Or.inr (Or.inl rfl))).1 (Nat.lt_succ_self 0),
   (candidates_strictly_increasing nextPrime nextPrime_spec STRESS_PRIME_METHOD_INC
      (Or.inr (Or.inl rfl))).2 0⟩

/-- C7: under the increment growth method the next candidate equals the
just-found prime plus 2 (`mpz_add_ui(start, value, 2)`). -/
theorem inc_method_next_candidate (s : MpzState) :
    (growthStep STRESS_PRIME_METHOD_INC s).start = s.value + 2 := rfl

/-- C8: after `n` completed loop iterations the operation count equals
exactly `n`: the bogo counter is bumped exactly once per iteration. -/
theorem ops_equals_iterations (f : Nat → Nat) (m : Nat) (pp : Bool)
    (ts : Nat → IterEvent) (t0 : ℚ) (n : Nat) :
    (∀ s : LoopState, (iterateN f m pp ts n s).ops = s.ops + n) ∧
    (iterateN f m pp ts n (initState t0)).ops = n := by
  have h : ∀ (k : Nat) (ts : Nat → IterEvent) (s : LoopState),
      (iterateN f m pp ts k s).ops = s.ops + k := by
    intro k
    induction k with
    | zero => intro ts s; rfl
    | succ k ih =>
      intro ts s
      show (iterateN f m pp ts k (iterBody f m pp (ts k) s)).ops = s.ops + (k + 1)
      rw [ih ts, iterBody_ops]
      omega
  exact ⟨h n ts, by rw [h n ts (initState t0)]; show 0 + n = n; omega⟩

/-- C9: a worker with instance index greater than 0 never emits a progress
line from the search loop, whatever the configured progress option. -/
theorem progress_only_instance_zero (f : Nat → Nat) (m : Nat) (inst : Nat)
    (opt : Bool) (es : List IterEvent) (s : LoopState)
    (hinst : 0 < inst) (hs : s.emits = []) :
    (runLoop f m (effectiveProgress inst opt) es s).emits = [] := by
  have hep : effectiveProgress inst opt = false := by
    simp [effectiveProgress, hinst]
  rw [hep, runLoop_emits_not_enabled, hs]

theorem progress_only_instance_zero_witness :
    0 < 1 ∧ (initState 0).emits = [] ∧
    (runLoop (fun n => n + 1) 1 (effectiveProgress 1 true)
      [⟨0, 100, false, true⟩] (initState 0)).emits = [] :=
  ⟨Nat.one_pos, rfl,
   progress_only_instance_zero (fun n => n + 1) 1 1 true _ _ Nat.one_pos rfl⟩

/-- C10: the growth step is total over all method codes: any value outside
the enumerated set behaves exactly as the factorial arm (the `default:`
label falls into `STRESS_PRIME_METHOD_FACTORIAL`), while the method used
when no setting is configured is increment. -/
theorem growth_step_total (m : Nat) (s : MpzState)
    (h0 : m ≠ STRESS_PRIME_METHOD_FACTORIAL) (h1 : m ≠ STRESS_PRIME_METHOD_INC)
    (h2 : m ≠ STRESS_PRIME_METHOD_PWR2) (h3 : m ≠ STRESS_PRIME_METHOD_PWR10) :
    growthStep m s =
      { s with start := s.start * s.factorial, factorial := s.factorial + 1 } ∧
    growthStep m s = growthStep STRESS_PRIME_METHOD_FACTORIAL s ∧
    defaultPrimeMethod = STRESS_PRIME_METHOD_INC := by
  rcases m with _ | _ | _ | _ | m
  · exact absurd rfl h0
  · exact absurd rfl h1
  · exact absurd rfl h2
  · exact absurd rfl h3
  · exact ⟨rfl, rfl, rfl⟩

theorem growth_step_total_witness :
    ((7 : Nat) ≠ STRESS_PRIME_METHOD_FACTORIAL ∧ (7 : Nat) ≠ STRESS_PRIME_METHOD_INC ∧
     (7 : Nat) ≠ STRESS_PRIME_METHOD_PWR2 ∧ (7 : Nat) ≠ STRESS_PRIME_METHOD_PWR10) ∧
    growthStep 7 ⟨3, 5, 4⟩ = ⟨12, 5, 5⟩ :=
  ⟨⟨by decide, by decide, by decide, by decide⟩,
   (growth_step_total 7 ⟨3, 5, 4⟩ (by decide) (by decide) (by decide) (by decide)).1⟩

/-- C4 counterexample: with the clock starting at 0 (initial threshold 60)
and strictly increasing search-completion times 1000 and 1001, the gate
fires at both — two emissions whose recorded timestamps are 1 apart, far
closer than 60. -/
theorem progress_spacing_counterexample :
    ((0 : ℚ) < 1000 ∧ (1000 : ℚ) < 1001) ∧
    (progressRun (0 + STRESS_PRIME_PROGRESS_INC_SECS) [1000, 1001]).2 = [1000, 1001] ∧
    ¬ (STRESS_PRIME_PROGRESS_INC_SECS ≤ (1001 : ℚ) - 1000) := by
  norm_num [progressRun, progressUpdate, STRESS_PRIME_PROGRESS_INC_SECS]

/-- C4 (amended): the gating threshold advances by exactly 60 on each
firing — after any run it equals the initial threshold plus 60 times the
number of emissions — and the `i`-th emission (0-based) fires at a recorded
timestamp no earlier than the initial threshold plus 60·i; consecutive
emissions may nevertheless be closer than 60 apart when the clock has run
ahead of the threshold. -/
theorem progress_threshold_advance (tP : ℚ) (ts : List ℚ) (i : Nat)
    (h : i < (progressRun tP ts).2.length) :
    (progressRun tP ts).1 =
      tP + STRESS_PRIME_PROGRESS_INC_SECS * ((progressRun tP ts).2.length : ℚ) ∧
    tP + STRESS_PRIME_PROGRESS_INC_SECS * (i : ℚ) ≤ (progressRun tP ts).2.get ⟨i, h⟩ :=
  ⟨(progressRun_spec ts tP).1, (progressRun_spec ts tP).2 i h⟩

theorem progress_threshold_advance_witness :
    0 < (progressRun 60 [1000]).2.length ∧
    (progressRun 60 [1000]).1 =
      60 + STRESS_PRIME_PROGRESS_INC_SECS * ((progressRun 60 [1000]).2.length : ℚ) := by
  have hlen : 0 < (progressRun 60 [1000]).2.length := by
    norm_num [progressRun, progressUpdate]
  exact ⟨hlen, (progress_threshold_advance 60 [1000] 0 hlen).1⟩

end StressPrime
